import Mathlib

/-!
Verification of the cookiecutter-uv-dataeng generation hooks.

This file gives a shallow embedding of the two hook scripts of the
repository:

* hooks/pre_gen_project.py  — input validation of the project name and
  project slug, and the OS-dependent patching of the cookiecutter.json
  manifest;
* hooks/post_gen_project.py — the post-generation customizer: file and
  directory removal/move operations on the rendered tree, license
  selection, and the optional Astro CLI bootstrap.

File-system state is modelled as lists of file paths and directory paths
together with an append-only log, exceptions as an explicit Except monad,
and Python regular-expression matching of the two fixed validation
patterns as executable functions over lists of characters.
-/

/-! ### Input validator (hooks/pre_gen_project.py, lines 28-112) -/

/-- ASCII letter test, the semantics of the regex classes a-z and A-Z. -/
def isAsciiLetter (c : Char) : Bool :=
  ('a' ≤ c && c ≤ 'z') || ('A' ≤ c && c ≤ 'Z')

/-- ASCII digit test, the semantics of the regex class 0-9. -/
def isAsciiDigit (c : Char) : Bool :=
  '0' ≤ c && c ≤ '9'

/-- First-character class of PROJECT_NAME_REGEX, the class [-a-zA-Z]. -/
def isNameFirstChar (c : Char) : Bool :=
  c = '-' || isAsciiLetter c

/-- Body-character class of PROJECT_NAME_REGEX, the class [-a-zA-Z0-9]. -/
def isNameChar (c : Char) : Bool :=
  c = '-' || isAsciiLetter c || isAsciiDigit c

/-- First-character class of PROJECT_SLUG_REGEX, the class [_a-zA-Z]. -/
def isSlugFirstChar (c : Char) : Bool :=
  c = '_' || isAsciiLetter c

/-- Body-character class of PROJECT_SLUG_REGEX, the class [_a-zA-Z0-9]. -/
def isSlugChar (c : Char) : Bool :=
  c = '_' || isAsciiLetter c || isAsciiDigit c

/-- Exact (full-string) match of a pattern of the shape
first body+ anchored at both ends: the string is one first-class
character followed by at least one body-class character. -/
def anchoredMatch (first body : Char → Bool) : List Char → Bool
  | [] => false
  | c :: rest => first c && !rest.isEmpty && rest.all body

/-- Strip a single final newline character, if the string ends in one.
In Python re (without MULTILINE), the anchor at the end of the pattern
matches at the end of the string or just before a newline that is the
last character, so matching against s is matching the stripped string
exactly, provided the character classes of the pattern exclude the
newline character (they do here). -/
def dropFinalNewline : List Char → List Char
  | [] => []
  | [c] => if c = '\n' then [] else [c]
  | c :: d :: rest => c :: dropFinalNewline (d :: rest)

/-- Semantics of Python re.match against a pattern of the shape
first body+ anchored at both ends: the end anchor also accepts a single
trailing newline. -/
def pyReMatchDollar (first body : Char → Bool) (s : List Char) : Bool :=
  anchoredMatch first body (dropFinalNewline s)

/-- hooks/pre_gen_project.py line 93:
bool(re.match(PROJECT_NAME_REGEX, name)) with
PROJECT_NAME_REGEX = "^[-a-zA-Z][-a-zA-Z0-9]+$" (line 28). -/
def validate_project_name (name : String) : Bool :=
  pyReMatchDollar isNameFirstChar isNameChar name.data

/-- hooks/pre_gen_project.py line 109:
bool(re.match(PROJECT_SLUG_REGEX, slug)) with
PROJECT_SLUG_REGEX = "^[_a-zA-Z][_a-zA-Z0-9]+$" (line 29). -/
def validate_project_slug (slug : String) : Bool :=
  pyReMatchDollar isSlugFirstChar isSlugChar slug.data

/-- The project-name pattern read as a formal language: an exact full
match of ^[-a-zA-Z][-a-zA-Z0-9]+$, as the spec words it. -/
def fullMatchName (s : List Char) : Bool :=
  anchoredMatch isNameFirstChar isNameChar s

/-- The project-slug pattern read as a formal language: an exact full
match of ^[_a-zA-Z][_a-zA-Z0-9]+$, as the spec words it. -/
def fullMatchSlug (s : List Char) : Bool :=
  anchoredMatch isSlugFirstChar isSlugChar s

/-! Helper lemmas about the matcher. -/

lemma anchoredMatch_mem {f b : Char → Bool} {l : List Char}
    (h : anchoredMatch f b l = true) {c : Char} (hc : c ∈ l) :
    f c = true ∨ b c = true := by
  cases l with
  | nil => cases hc
  | cons a rest =>
    simp only [anchoredMatch, Bool.and_eq_true] at h
    rcases List.mem_cons.mp hc with rfl | hmem
    · exact Or.inl h.1.1
    · exact Or.inr (List.all_eq_true.mp h.2 c hmem)

lemma anchoredMatch_false_of_mem {f b : Char → Bool} {l : List Char}
    {x : Char} (hx : x ∈ l) (hf : f x = false) (hb : b x = false) :
    anchoredMatch f b l = false := by
  cases hval : anchoredMatch f b l with
  | false => rfl
  | true =>
    rcases anchoredMatch_mem hval hx with h | h
    · rw [hf] at h; cases h
    · rw [hb] at h; cases h

lemma dropFinalNewline_of_not_mem {l : List Char} (h : '\n' ∉ l) :
    dropFinalNewline l = l := by
  induction l with
  | nil => rfl
  | cons c rest ih =>
    cases rest with
    | nil =>
      have hc : ¬(c = '\n') := by
        rintro rfl
        exact h (List.mem_singleton.mpr rfl)
      simp [dropFinalNewline, hc]
    | cons d t =>
      have htail := ih (fun hm => h (List.mem_cons_of_mem c hm))
      simp [dropFinalNewline, htail]

lemma mem_dropFinalNewline {l : List Char} {x : Char} (hx : x ∈ l)
    (hne : x ≠ '\n') : x ∈ dropFinalNewline l := by
  induction l with
  | nil => cases hx
  | cons c rest ih =>
    cases rest with
    | nil =>
      rcases List.mem_cons.mp hx with rfl | hm
      · have hc : ¬(x = '\n') := hne
        simp [dropFinalNewline, hc]
      · cases hm
    | cons d t =>
      rcases List.mem_cons.mp hx with rfl | hm
      · simp [dropFinalNewline]
      · simp [dropFinalNewline, ih hm]

lemma pyReMatchDollar_of_anchored {f b : Char → Bool}
    (hf : f '\n' = false) (hb : b '\n' = false) {l : List Char}
    (h : anchoredMatch f b l = true) : pyReMatchDollar f b l = true := by
  unfold pyReMatchDollar
  rw [dropFinalNewline_of_not_mem]
  · exact h
  · intro hm
    rcases anchoredMatch_mem h hm with h1 | h1
    · rw [hf] at h1; cases h1
    · rw [hb] at h1; cases h1

lemma pyReMatchDollar_false_of_mem {f b : Char → Bool} {l : List Char}
    {x : Char} (hx : x ∈ l) (hne : x ≠ '\n')
    (hf : f x = false) (hb : b x = false) :
    pyReMatchDollar f b l = false := by
  unfold pyReMatchDollar
  exact anchoredMatch_false_of_mem (mem_dropFinalNewline hx hne) hf hb

/-- C1: every string that is a full match of the project-name pattern
^[-a-zA-Z][-a-zA-Z0-9]+$ passes validate_project_name, and every string
containing an underscore fails it; symmetrically, every full match of
the slug pattern ^[_a-zA-Z][_a-zA-Z0-9]+$ passes validate_project_slug,
and every string containing a hyphen fails it. -/
theorem C1_validate_name_slug (s t : String) :
    (fullMatchName s.data = true → validate_project_name s = true) ∧
    ('_' ∈ s.data → validate_project_name s = false) ∧
    (fullMatchSlug t.data = true → validate_project_slug t = true) ∧
    ('-' ∈ t.data → validate_project_slug t = false) := by
  refine ⟨?_, ?_, ?_, ?_⟩
  · intro h
    exact pyReMatchDollar_of_anchored (by decide) (by decide) h
  · intro h
    exact pyReMatchDollar_false_of_mem h (by decide) (by decide) (by decide)
  · intro h
    exact pyReMatchDollar_of_anchored (by decide) (by decide) h
  · intro h
    exact pyReMatchDollar_false_of_mem h (by decide) (by decide) (by decide)

theorem C1_validate_name_slug_witness :
    validate_project_name "my-project" = true ∧
    validate_project_name "my_project" = false ∧
    validate_project_slug "my_slug0" = true ∧
    validate_project_slug "my-slug" = false :=
  ⟨(C1_validate_name_slug "my-project" "my_slug0").1 (by decide),
   (C1_validate_name_slug "my_project" "x").2.1 (by decide),
   (C1_validate_name_slug "my-project" "my_slug0").2.2.1 (by decide),
   (C1_validate_name_slug "x" "my-slug").2.2.2 (by decide)⟩

/-- C10: a string that is an otherwise-valid name or slug followed by a
single trailing newline is accepted by the validators even though it is
not a full match of the documented pattern, because the end anchor of
Python re.match also matches just before a terminal newline. -/
theorem C10_trailing_newline_accepted :
    validate_project_name "my-project\n" = true ∧
    fullMatchName ("my-project\n").data = false ∧
    validate_project_slug "my_project\n" = true ∧
    fullMatchSlug ("my_project\n").data = false := by
  refine ⟨by decide, by decide, by decide, by decide⟩

/-! ### Post-generation customizer state model (hooks/post_gen_project.py) -/

/-- Severity levels of the Python logging module, as used by the hooks. -/
inductive LogLevel where
  | debug
  | info
  | warning
  | error
  | critical
deriving DecidableEq, Repr

/-- One emitted log record: a level and a message. -/
structure LogEntry where
  level : LogLevel
  msg : String
deriving DecidableEq, Repr

/-- The state the customizer operates on: the set of file paths and the
set of directory paths of the rendered tree (relative to
PROJECT_DIRECTORY), plus the append-only log. -/
structure FS where
  files : List String
  dirs : List String
  logs : List LogEntry
deriving DecidableEq, Repr

/-- Append one log record. -/
def addLog (lv : LogLevel) (m : String) (fs : FS) : FS :=
  { fs with logs := fs.logs ++ [⟨lv, m⟩] }

/-- The proper ancestor directories of a relative path: for a/b/c these
are a and a/b; a path without a slash has none. -/
def parentDirsGo (acc : List Char) : List Char → List String
  | [] => []
  | c :: rest =>
    if c = '/' then String.mk acc :: parentDirsGo (acc ++ [c]) rest
    else parentDirsGo (acc ++ [c]) rest

/-- Ancestor directories of a path, outermost first. -/
def parentDirs (p : String) : List String :=
  parentDirsGo [] p.data

/-- target_path.parent.mkdir(parents=True, exist_ok=True): add every
missing ancestor directory of the target path. -/
def mkdirParents (target : String) (fs : FS) : FS :=
  { fs with dirs := fs.dirs ++ (parentDirs target).filter (fun d => decide (d ∉ fs.dirs)) }

/-- Whether path q equals d or lies strictly below directory d. -/
def isUnder (d q : String) : Bool :=
  decide (q = d) || List.isPrefixOf (d ++ "/").data q.data

/-- Re-root a single path for a rename of src to tgt: src itself becomes
tgt, a path strictly below src is re-rooted below tgt, anything else is
unchanged. -/
def reroot (src tgt p : String) : String :=
  if p = src then tgt
  else if List.isPrefixOf (src ++ "/").data p.data then
    tgt ++ String.mk (p.data.drop src.data.length)
  else p

/-- Effect on the tree of renaming src to tgt (Path.rename for a file,
shutil.move for a directory): every path at or below src is re-rooted at
tgt. -/
def renamePath (src tgt : String) (fs : FS) : FS :=
  { fs with files := fs.files.map (reroot src tgt),
            dirs := fs.dirs.map (reroot src tgt) }

/-- hooks/post_gen_project.py lines 37-54 (remove_file): if the path
exists as a file it is unlinked and an info record is logged; if the
path exists but is a directory, unlink raises and the handler logs a
warning; otherwise a debug record notes the skip. Absence is a silent
no-op and no exception escapes. -/
def remove_file (filepath : String) (fs : FS) : FS :=
  if filepath ∈ fs.files then
    addLog .info ("Removed file: " ++ filepath)
      { fs with files := fs.files.filter (fun q => decide (q ≠ filepath)) }
  else if filepath ∈ fs.dirs then
    addLog .warning ("Could not remove file " ++ filepath) fs
  else
    addLog .debug ("File does not exist, skipping: " ++ filepath) fs

/-- shutil.rmtree(path, ignore_errors=True): when the path is a
directory, the whole subtree is removed; on a non-directory path every
error is suppressed and nothing is removed. -/
def rmtreeIgnoreErrors (p : String) (fs : FS) : FS :=
  if p ∈ fs.dirs then
    { fs with files := fs.files.filter (fun q => !(isUnder p q)),
              dirs := fs.dirs.filter (fun q => !(isUnder p q)) }
  else fs

/-- hooks/post_gen_project.py lines 57-75 (remove_dir): if the path
exists, shutil.rmtree with ignore_errors=True is invoked and an info
record is logged; otherwise a debug record notes the skip. No exception
escapes. -/
def remove_dir (filepath : String) (fs : FS) : FS :=
  if filepath ∈ fs.files ∨ filepath ∈ fs.dirs then
    addLog .info ("Removed directory: " ++ filepath) (rmtreeIgnoreErrors filepath fs)
  else
    addLog .debug ("Directory does not exist, skipping: " ++ filepath) fs

/-- The final component of a relative path: the characters after the
last slash (the whole path when it has no slash), as os.path.basename
computes it for the paths at hand. -/
def baseNameGo (cur : List Char) : List Char → List Char
  | [] => cur
  | c :: rest => if c = '/' then baseNameGo [] rest else baseNameGo (cur ++ [c]) rest

/-- os.path.basename of a relative path. -/
def baseName (p : String) : String :=
  String.mk (baseNameGo [] p.data)

/-- Drop the entry with exactly path p from both categories, the
clobbering of an existing destination by a POSIX rename. -/
def removeEntry (p : String) (fs : FS) : FS :=
  { fs with files := fs.files.filter (fun q => decide (q ≠ p)),
            dirs := fs.dirs.filter (fun q => decide (q ≠ p)) }

/-- Whether directory d has any entry strictly below it. -/
def dirHasEntries (d : String) (fs : FS) : Bool :=
  fs.files.any (fun q => List.isPrefixOf (d ++ "/").data q.data) ||
  fs.dirs.any (fun q => List.isPrefixOf (d ++ "/").data q.data)

/-- hooks/post_gen_project.py lines 78-106 (move_file): create the
missing ancestors of the target, then, if the source exists, call
source_path.rename(target_path). Path.rename is given its POSIX
semantics, the platform these hooks run on: renaming a file onto an
existing target file silently replaces the target; renaming a file
onto an existing directory (IsADirectoryError), a directory onto an
existing file (NotADirectoryError) or a directory onto a non-empty
directory (ENOTEMPTY) raises an OSError that falls through to the
final except Exception handler, which logs at error level (the
except FileExistsError handler at lines 103-104 is unreachable on
POSIX); a missing source logs a warning and is a no-op. -/
def move_file (filepath target : String) (fs : FS) : FS :=
  let fs1 := mkdirParents target fs
  if filepath ∈ fs1.files ∨ filepath ∈ fs1.dirs then
    if filepath ∈ fs1.files then
      if target ∈ fs1.dirs then
        addLog .error ("Error moving file " ++ filepath ++ " to " ++ target) fs1
      else
        addLog .info ("Moved file: " ++ filepath ++ " to " ++ target)
          (renamePath filepath target
            (if target = filepath then fs1 else removeEntry target fs1))
    else
      if target ∈ fs1.files then
        addLog .error ("Error moving file " ++ filepath ++ " to " ++ target) fs1
      else if target ∈ fs1.dirs then
        if dirHasEntries target fs1 then
          addLog .error ("Error moving file " ++ filepath ++ " to " ++ target) fs1
        else
          addLog .info ("Moved file: " ++ filepath ++ " to " ++ target)
            (renamePath filepath target
              (if target = filepath then fs1 else removeEntry target fs1))
      else
        addLog .info ("Moved file: " ++ filepath ++ " to " ++ target)
          (renamePath filepath target fs1)
  else
    addLog .warning ("Source file " ++ filepath ++ " does not exist, skipping move operation.") fs1

/-- hooks/post_gen_project.py lines 109-138 (move_dir): create the
missing ancestors of the target, then, if the source exists, call
shutil.move. shutil.move is given its POSIX same-filesystem
semantics: when the destination is an existing directory, the real
destination is destination/basename(source); if that real destination
already exists, shutil.Error is raised and falls through to the final
except Exception handler, which logs at error level (the
except FileExistsError handler at lines 135-136 never catches it),
otherwise the source is renamed into the directory; when the
destination is not a directory, os.rename applies: a file source
silently replaces an existing destination file, while a directory
source onto an existing file raises NotADirectoryError, again logged
at error level; a missing source logs a warning and is a no-op. -/
def move_dir (src target : String) (fs : FS) : FS :=
  let fs1 := mkdirParents target fs
  if src ∈ fs1.files ∨ src ∈ fs1.dirs then
    if target ∈ fs1.dirs then
      if (target ++ "/" ++ baseName src) ∈ fs1.files ∨
          (target ++ "/" ++ baseName src) ∈ fs1.dirs then
        addLog .error ("Error moving directory " ++ src ++ " to " ++ target) fs1
      else
        addLog .info ("Moved directory: " ++ src ++ " to " ++ target)
          (renamePath src (target ++ "/" ++ baseName src) fs1)
    else
      if src ∉ fs1.files ∧ target ∈ fs1.files then
        addLog .error ("Error moving directory " ++ src ++ " to " ++ target) fs1
      else
        addLog .info ("Moved directory: " ++ src ++ " to " ++ target)
          (renamePath src target
            (if target = src then fs1 else removeEntry target fs1))
  else
    addLog .warning ("Source directory " ++ src ++ " does not exist, skipping move operation.") fs1

/-! Projection lemmas for the tree operations. -/

lemma remove_file_files (p : String) (fs : FS) :
    (remove_file p fs).files = fs.files.filter (fun q => decide (q ≠ p)) := by
  unfold remove_file addLog
  by_cases h1 : p ∈ fs.files
  · rw [if_pos h1]
  · rw [if_neg h1]
    have : fs.files.filter (fun q => decide (q ≠ p)) = fs.files := by
      apply List.filter_eq_self.mpr
      intro a ha
      simp only [decide_eq_true_eq]
      rintro rfl
      exact h1 ha
    by_cases h2 : p ∈ fs.dirs
    · rw [if_pos h2, this]
    · rw [if_neg h2, this]

lemma remove_file_dirs (p : String) (fs : FS) :
    (remove_file p fs).dirs = fs.dirs := by
  unfold remove_file addLog
  by_cases h1 : p ∈ fs.files
  · rw [if_pos h1]
  · rw [if_neg h1]
    by_cases h2 : p ∈ fs.dirs
    · rw [if_pos h2]
    · rw [if_neg h2]

lemma not_mem_remove_file_files (p : String) (fs : FS) :
    p ∉ (remove_file p fs).files := by
  rw [remove_file_files]
  intro h
  have := (List.mem_filter.mp h).2
  simp at this

lemma mem_remove_file_files {q p : String} {fs : FS} :
    q ∈ (remove_file p fs).files ↔ q ∈ fs.files ∧ q ≠ p := by
  rw [remove_file_files, List.mem_filter]
  simp

lemma remove_dir_dirs_not_mem (p : String) (fs : FS) :
    p ∉ (remove_dir p fs).dirs := by
  unfold remove_dir rmtreeIgnoreErrors addLog
  by_cases h1 : p ∈ fs.files ∨ p ∈ fs.dirs
  · rw [if_pos h1]
    by_cases h2 : p ∈ fs.dirs
    · rw [if_pos h2]
      intro h
      have := (List.mem_filter.mp h).2
      simp [isUnder] at this
    · rw [if_neg h2]
      exact h2
  · rw [if_neg h1]
    intro h
    exact h1 (Or.inr h)

lemma remove_dir_files_of_not_dir {p : String} {fs : FS} (h : p ∉ fs.dirs) :
    (remove_dir p fs).files = fs.files := by
  unfold remove_dir rmtreeIgnoreErrors addLog
  by_cases h1 : p ∈ fs.files ∨ p ∈ fs.dirs
  · rw [if_pos h1, if_neg h]
  · rw [if_neg h1]

lemma remove_dir_dirs_of_not_dir {p : String} {fs : FS} (h : p ∉ fs.dirs) :
    (remove_dir p fs).dirs = fs.dirs := by
  unfold remove_dir rmtreeIgnoreErrors addLog
  by_cases h1 : p ∈ fs.files ∨ p ∈ fs.dirs
  · rw [if_pos h1, if_neg h]
  · rw [if_neg h1]

lemma remove_file_logs_level (p : String) (fs : FS) :
    ∃ lv m, (remove_file p fs).logs = fs.logs ++ [⟨lv, m⟩] ∧ lv ≠ LogLevel.error := by
  unfold remove_file addLog
  by_cases h1 : p ∈ fs.files
  · rw [if_pos h1]
    exact ⟨.info, _, rfl, by decide⟩
  · rw [if_neg h1]
    by_cases h2 : p ∈ fs.dirs
    · rw [if_pos h2]
      exact ⟨.warning, _, rfl, by decide⟩
    · rw [if_neg h2]
      exact ⟨.debug, _, rfl, by decide⟩

lemma rmtreeIgnoreErrors_logs (p : String) (fs : FS) :
    (rmtreeIgnoreErrors p fs).logs = fs.logs := by
  unfold rmtreeIgnoreErrors
  by_cases h : p ∈ fs.dirs
  · rw [if_pos h]
  · rw [if_neg h]

lemma remove_dir_logs_level (p : String) (fs : FS) :
    ∃ lv m, (remove_dir p fs).logs = fs.logs ++ [⟨lv, m⟩] ∧ lv ≠ LogLevel.error := by
  unfold remove_dir addLog
  by_cases h1 : p ∈ fs.files ∨ p ∈ fs.dirs
  · rw [if_pos h1]
    exact ⟨.info, _, by rw [rmtreeIgnoreErrors_logs], by decide⟩
  · rw [if_neg h1]
    exact ⟨.debug, _, rfl, by decide⟩

/-- C8: running remove_file twice on the same path, or remove_dir twice
on the same path, leaves the same tree (files and directories) as
running it once, and the second run emits no error-level record and
raises nothing (every branch of both operations is exception-free in
the source). -/
theorem C8_remove_idempotent (p : String) (fs : FS) :
    ((remove_file p (remove_file p fs)).files = (remove_file p fs).files ∧
     (remove_file p (remove_file p fs)).dirs = (remove_file p fs).dirs) ∧
    ((remove_dir p (remove_dir p fs)).files = (remove_dir p fs).files ∧
     (remove_dir p (remove_dir p fs)).dirs = (remove_dir p fs).dirs) ∧
    (∀ e ∈ (remove_file p (remove_file p fs)).logs,
       e ∈ (remove_file p fs).logs ∨ e.level ≠ LogLevel.error) ∧
    (∀ e ∈ (remove_dir p (remove_dir p fs)).logs,
       e ∈ (remove_dir p fs).logs ∨ e.level ≠ LogLevel.error) := by
  refine ⟨⟨?_, ?_⟩, ?_, ?_, ?_⟩
  · rw [remove_file_files p (remove_file p fs)]
    apply List.filter_eq_self.mpr
    intro a ha
    simp only [decide_eq_true_eq]
    exact (mem_remove_file_files.mp ha).2
  · exact remove_file_dirs p (remove_file p fs)
  · have hnd : p ∉ (remove_dir p fs).dirs := remove_dir_dirs_not_mem p fs
    exact ⟨remove_dir_files_of_not_dir hnd, remove_dir_dirs_of_not_dir hnd⟩
  · obtain ⟨lv, m, heq, hlv⟩ := remove_file_logs_level p (remove_file p fs)
    intro e he
    rw [heq] at he
    rcases List.mem_append.mp he with h | h
    · exact Or.inl h
    · right
      rw [List.mem_singleton.mp h]
      exact hlv
  · obtain ⟨lv, m, heq, hlv⟩ := remove_dir_logs_level p (remove_dir p fs)
    intro e he
    rw [heq] at he
    rcases List.mem_append.mp he with h | h
    · exact Or.inl h
    · right
      rw [List.mem_singleton.mp h]
      exact hlv

/-! ### Decision-table sections of post_gen_project.py (lines 172-186) -/

/-- hooks/post_gen_project.py lines 173-179: match on the mkdocs flag;
the value "y" keeps everything, any other value removes the docs
directory and then the mkdocs.yml file. -/
def mkdocs_section (mkdocs : String) (fs : FS) : FS :=
  if mkdocs = "y" then fs
  else remove_file "mkdocs.yml" (remove_dir "docs" fs)

/-- hooks/post_gen_project.py lines 181-186: match on the codecov flag;
the value "y" keeps everything, any other value removes the
codecov.yaml file (and nothing else). -/
def codecov_section (codecov : String) (fs : FS) : FS :=
  if codecov = "y" then fs
  else remove_file "codecov.yaml" fs

/-- C4 (amended): whenever the documentation flag is any value other
than "y", the customizer removes the docs directory and the docs
configuration file mkdocs.yml; the docs CI workflow file is not touched
by this section. -/
theorem C4_mkdocs_removed (mkdocs : String) (fs : FS) (h : mkdocs ≠ "y") :
    "docs" ∉ (mkdocs_section mkdocs fs).dirs ∧
    "mkdocs.yml" ∉ (mkdocs_section mkdocs fs).files := by
  unfold mkdocs_section
  rw [if_neg h]
  constructor
  · rw [remove_file_dirs]
    exact remove_dir_dirs_not_mem _ _
  · exact not_mem_remove_file_files _ _

theorem C4_mkdocs_removed_witness :
    "docs" ∉ (mkdocs_section "n" ⟨["mkdocs.yml"], ["docs"], []⟩).dirs ∧
    "mkdocs.yml" ∉ (mkdocs_section "n" ⟨["mkdocs.yml"], ["docs"], []⟩).files :=
  C4_mkdocs_removed "n" ⟨["mkdocs.yml"], ["docs"], []⟩ (by decide)

/-- C4 (counterexample to the claim as stated): with the documentation
flag disabled on a tree holding the workflow file that carries the docs
CI deployment (.github/workflows/on-release-main.yml, the file the
repository's own test test_not_mkdocs expects to survive), the
customizer leaves that workflow file in place, so it is not true that
the docs CI workflow file is removed. -/
theorem C4_counterexample :
    ".github/workflows/on-release-main.yml" ∈
      (mkdocs_section "n"
        ⟨["mkdocs.yml", ".github/workflows/on-release-main.yml"], ["docs"], []⟩).files := by
  decide

/-- C5: evaluation of the codecov section at the failing input: with
the coverage flag disabled on a tree holding both the coverage
configuration file and the coverage-validation workflow file, the code
removes codecov.yaml but leaves
.github/workflows/validate-codecov-config.yml in place, although the
repository's own test test_not_codecov requires it to be absent. -/
theorem C5_codecov_workflow_kept :
    "codecov.yaml" ∉
      (codecov_section "n"
        ⟨["codecov.yaml", ".github/workflows/validate-codecov-config.yml"], [], []⟩).files ∧
    ".github/workflows/validate-codecov-config.yml" ∈
      (codecov_section "n"
        ⟨["codecov.yaml", ".github/workflows/validate-codecov-config.yml"], [], []⟩).files := by
  constructor
  · decide
  · decide

/-! ### License handling (hooks/post_gen_project.py, lines 214-245) -/

/-- hooks/post_gen_project.py line 216: the five mutually exclusive
license-text files produced by the renderer. -/
def all_licenses : List String :=
  ["LICENSE_MIT", "LICENSE_BSD", "LICENSE_ISC", "LICENSE_APACHE", "LICENSE_GPL"]

/-- The license_to_keep value assigned by the match statement at
hooks/post_gen_project.py lines 219-236: each of the five named choices
selects its license file; anything else selects none. -/
def license_to_keep (license_type : String) : Option String :=
  if license_type = "MIT license" then some "LICENSE_MIT"
  else if license_type = "BSD license" then some "LICENSE_BSD"
  else if license_type = "ISC license" then some "LICENSE_ISC"
  else if license_type = "Apache Software License 2.0" then some "LICENSE_APACHE"
  else if license_type = "GNU General Public License v3" then some "LICENSE_GPL"
  else none

/-- hooks/post_gen_project.py lines 214-245: for a recognized license
the matching file is moved to LICENSE and every other name in
all_licenses is removed; otherwise every name in all_licenses is
removed. -/
def license_section (license_type : String) (fs : FS) : FS :=
  match license_to_keep license_type with
  | some keep =>
    all_licenses.foldl (fun s lf => if lf ≠ keep then remove_file lf s else s)
      (move_file keep "LICENSE" fs)
  | none =>
    all_licenses.foldl (fun s lf => remove_file lf s) fs

/-! Lemmas about folds of remove_file and about move_file. -/

lemma foldl_remove_files (l : List String) (fs : FS) (q : String) :
    q ∈ (l.foldl (fun s lf => remove_file lf s) fs).files ↔
      q ∈ fs.files ∧ q ∉ l := by
  induction l generalizing fs with
  | nil => simp
  | cons p t ih =>
    simp only [List.foldl_cons]
    rw [ih, mem_remove_file_files]
    constructor
    · rintro ⟨⟨hq, hne⟩, hnt⟩
      refine ⟨hq, ?_⟩
      intro hc
      rcases List.mem_cons.mp hc with rfl | hc'
      · exact hne rfl
      · exact hnt hc'
    · rintro ⟨hq, hn⟩
      refine ⟨⟨hq, ?_⟩, fun ht => hn (List.mem_cons_of_mem p ht)⟩
      rintro rfl
      exact hn (List.mem_cons_self _ _)

lemma foldl_remove_guard_files (keep : String) (l : List String) (fs : FS) (q : String) :
    q ∈ (l.foldl (fun s lf => if lf ≠ keep then remove_file lf s else s) fs).files ↔
      q ∈ fs.files ∧ (q ∈ l → q = keep) := by
  induction l generalizing fs with
  | nil => simp
  | cons p t ih =>
    simp only [List.foldl_cons]
    by_cases hp : p ≠ keep
    · rw [if_pos hp, ih, mem_remove_file_files]
      constructor
      · rintro ⟨⟨hq, hne⟩, himp⟩
        refine ⟨hq, ?_⟩
        intro hc
        rcases List.mem_cons.mp hc with rfl | hc'
        · exact absurd rfl hne
        · exact himp hc'
      · rintro ⟨hq, himp⟩
        refine ⟨⟨hq, ?_⟩, fun ht => himp (List.mem_cons_of_mem p ht)⟩
        rintro rfl
        exact hp (himp (List.mem_cons_self _ _))
    · rw [if_neg hp, ih]
      have hpk : p = keep := not_not.mp hp
      subst hpk
      constructor
      · rintro ⟨hq, himp⟩
        refine ⟨hq, ?_⟩
        intro hc
        rcases List.mem_cons.mp hc with rfl | hc'
        · rfl
        · exact himp hc'
      · rintro ⟨hq, himp⟩
        exact ⟨hq, fun ht => himp (List.mem_cons_of_mem _ ht)⟩

lemma mem_mkdirParents_dirs {d target : String} {fs : FS} :
    d ∈ (mkdirParents target fs).dirs ↔ d ∈ fs.dirs ∨ d ∈ parentDirs target := by
  simp only [mkdirParents, List.mem_append, List.mem_filter, decide_eq_true_eq]
  constructor
  · rintro (h | ⟨h, _⟩)
    · exact Or.inl h
    · exact Or.inr h
  · rintro (h | h)
    · exact Or.inl h
    · by_cases hd : d ∈ fs.dirs
      · exact Or.inl hd
      · exact Or.inr ⟨h, hd⟩

lemma move_file_success_files {src tgt : String} {fs : FS}
    (hs : src ∈ fs.files) (ht1 : tgt ∉ fs.files)
    (ht2 : tgt ∉ (mkdirParents tgt fs).dirs) :
    (move_file src tgt fs).files = fs.files.map (reroot src tgt) := by
  have hne : tgt ≠ src := fun e => ht1 (e ▸ hs)
  have hcond : src ∈ (mkdirParents tgt fs).files ∨ src ∈ (mkdirParents tgt fs).dirs :=
    Or.inl hs
  have hfe : fs.files.filter (fun q => decide (q ≠ tgt)) = fs.files := by
    apply List.filter_eq_self.mpr
    intro a ha
    simp only [decide_eq_true_eq]
    rintro rfl
    exact ht1 ha
  simp only [move_file]
  rw [if_pos hcond, if_pos (show src ∈ (mkdirParents tgt fs).files from hs),
      if_neg ht2, if_neg hne]
  show (fs.files.filter (fun q => decide (q ≠ tgt))).map (reroot src tgt) =
    fs.files.map (reroot src tgt)
  rw [hfe]

lemma reroot_self (src tgt : String) : reroot src tgt src = tgt := by
  unfold reroot
  rw [if_pos rfl]

lemma mem_map_reroot_tgt {src tgt : String} {l : List String} (h : src ∈ l) :
    tgt ∈ l.map (reroot src tgt) :=
  List.mem_map.mpr ⟨src, h, reroot_self src tgt⟩

lemma not_mem_map_reroot {src tgt : String} {l : List String}
    (hne : tgt ≠ src)
    (hnp : ∀ p ∈ l, List.isPrefixOf (src ++ "/").data p.data = false) :
    src ∉ l.map (reroot src tgt) := by
  intro h
  obtain ⟨p, hp, hre⟩ := List.mem_map.mp h
  unfold reroot at hre
  by_cases h1 : p = src
  · rw [if_pos h1] at hre
    exact hne hre
  · rw [if_neg h1] at hre
    by_cases h2 : List.isPrefixOf (src ++ "/").data p.data = true
    · rw [hnp p hp] at h2
      cases h2
    · rw [if_neg h2] at hre
      exact h1 hre

lemma license_to_keep_cases {lt keep : String} (h : license_to_keep lt = some keep) :
    keep = "LICENSE_MIT" ∨ keep = "LICENSE_BSD" ∨ keep = "LICENSE_ISC" ∨
    keep = "LICENSE_APACHE" ∨ keep = "LICENSE_GPL" := by
  unfold license_to_keep at h
  split_ifs at h
  · exact Or.inl (Option.some.inj h).symm
  · exact Or.inr (Or.inl (Option.some.inj h).symm)
  · exact Or.inr (Or.inr (Or.inl (Option.some.inj h).symm))
  · exact Or.inr (Or.inr (Or.inr (Or.inl (Option.some.inj h).symm)))
  · exact Or.inr (Or.inr (Or.inr (Or.inr (Option.some.inj h).symm)))

lemma license_to_keep_mem {lt keep : String} (h : license_to_keep lt = some keep) :
    keep ∈ all_licenses := by
  rcases license_to_keep_cases h with rfl | rfl | rfl | rfl | rfl <;> decide

lemma license_to_keep_ne {lt keep : String} (h : license_to_keep lt = some keep) :
    keep ≠ "LICENSE" := by
  rcases license_to_keep_cases h with rfl | rfl | rfl | rfl | rfl <;> decide

/-- C2: on a rendered tree holding the five LICENSE_* files and no
LICENSE entry, each of the five named license choices moves its
matching LICENSE_* file to the canonical name LICENSE and removes the
other four, so LICENSE exists and no LICENSE_* file survives; for any
unrecognized choice (such as "Not open source") all five LICENSE_*
files are removed and no LICENSE file is created. -/
theorem C2_license_selection (fs : FS)
    (h1 : ∀ l ∈ all_licenses, l ∈ fs.files)
    (h2 : "LICENSE" ∉ fs.files)
    (h3 : "LICENSE" ∉ fs.dirs)
    (h4 : ∀ l ∈ all_licenses, ∀ p ∈ fs.files,
        List.isPrefixOf (l ++ "/").data p.data = false) :
    (∀ lt keep, license_to_keep lt = some keep →
       "LICENSE" ∈ (license_section lt fs).files ∧
       ∀ l ∈ all_licenses, l ∉ (license_section lt fs).files) ∧
    (∀ lt, license_to_keep lt = none →
       "LICENSE" ∉ (license_section lt fs).files ∧
       ∀ l ∈ all_licenses, l ∉ (license_section lt fs).files) := by
  constructor
  · intro lt keep hk
    have hkm : keep ∈ all_licenses := license_to_keep_mem hk
    have hkL : keep ≠ "LICENSE" := license_to_keep_ne hk
    have hsrc : keep ∈ fs.files := h1 keep hkm
    have hpd : parentDirs "LICENSE" = [] := rfl
    have ht2 : "LICENSE" ∉ (mkdirParents "LICENSE" fs).dirs := by
      rw [mem_mkdirParents_dirs, hpd]
      rintro (h | h)
      · exact h3 h
      · cases h
    have hmv : (move_file keep "LICENSE" fs).files = fs.files.map (reroot keep "LICENSE") :=
      move_file_success_files hsrc h2 ht2
    simp only [license_section, hk]
    constructor
    · rw [foldl_remove_guard_files]
      constructor
      · rw [hmv]
        exact mem_map_reroot_tgt hsrc
      · intro hc
        exact absurd hc (by decide)
    · intro l hl
      rw [foldl_remove_guard_files]
      rintro ⟨hlf, himp⟩
      have hleq : l = keep := himp hl
      subst hleq
      rw [hmv] at hlf
      exact not_mem_map_reroot (fun e => hkL e.symm) (fun p hp => h4 l hkm p hp) hlf
  · intro lt hn
    simp only [license_section, hn]
    constructor
    · rw [foldl_remove_files]
      rintro ⟨hm, _⟩
      exact h2 hm
    · intro l hl
      rw [foldl_remove_files]
      rintro ⟨_, hnl⟩
      exact hnl hl

theorem C2_license_selection_witness :
    ("LICENSE" ∈ (license_section "MIT license" ⟨all_licenses, [], []⟩).files ∧
      ∀ l ∈ all_licenses, l ∉ (license_section "MIT license" ⟨all_licenses, [], []⟩).files) ∧
    ("LICENSE" ∉ (license_section "Not open source" ⟨all_licenses, [], []⟩).files ∧
      ∀ l ∈ all_licenses, l ∉ (license_section "Not open source" ⟨all_licenses, [], []⟩).files) :=
  ⟨(C2_license_selection ⟨all_licenses, [], []⟩ (by decide) (by decide) (by decide)
      (by decide)).1 "MIT license" "LICENSE_MIT" (by decide),
   (C2_license_selection ⟨all_licenses, [], []⟩ (by decide) (by decide) (by decide)
      (by decide)).2 "Not open source" (by decide)⟩

/-! ### Configuration patcher and pre-generation main
(hooks/pre_gen_project.py, lines 115-197) -/

/-- The keys of cookiecutter.json the pre-generation script touches:
the _prompts mapping (absent or a string-to-string table) and the
top-level include_astro_cli default. Every other key is passed through
unchanged by the script, so it is not part of the state. -/
structure CCConfig where
  prompts : Option (List (String × String))
  include_astro_cli : Option String
deriving DecidableEq, Repr

/-- Python dict assignment d[k] = v on an association list: replace the
value when the key is present, append the pair otherwise. -/
def setKey (k v : String) (m : List (String × String)) : List (String × String) :=
  if m.any (fun kv => kv.1 = k) then
    m.map (fun kv => if kv.1 = k then (k, v) else kv)
  else m ++ [(k, v)]

/-- Python del d[k] guarded by a membership test: drop every pair whose
key is k. -/
def delKey (k : String) (m : List (String × String)) : List (String × String) :=
  m.filter (fun kv => decide (kv.1 ≠ k))

/-- The Astro CLI prompt text inserted on macOS
(hooks/pre_gen_project.py line 142). -/
def astroPromptText : String :=
  "Do you want to initialise Astro CLI in this project? (y/n):"

/-- hooks/pre_gen_project.py lines 132-149: initialize _prompts to an
empty table when absent; on Darwin insert the include_astro_cli prompt;
on Windows delete the include_astro_cli prompt when present and set the
top-level include_astro_cli default to "n"; no other change. -/
def patch_config (operating_system : String) (config : CCConfig) : CCConfig :=
  let config1 :=
    match config.prompts with
    | none => { config with prompts := some [] }
    | some _ => config
  if operating_system = "Darwin" then
    { config1 with
        prompts := some (setKey "include_astro_cli" astroPromptText (config1.prompts.getD [])) }
  else if operating_system = "Windows" then
    { config1 with
        prompts := some (delKey "include_astro_cli" (config1.prompts.getD [])),
        include_astro_cli := some "n" }
  else config1

/-- The externally observable outcome of one pre-generation run: the
manifest content written back by save_cookiecutter_config (some c when
the file was rewritten with content c) and the process exit code. -/
structure PreGenResult where
  savedConfig : Option CCConfig
  exitCode : Nat
deriving DecidableEq, Repr

/-- hooks/pre_gen_project.py lines 115-197 (main), on the happy I/O
path: load the manifest, patch it for the operating system, write it
back, and only then validate the rendered project name and project
slug, exiting with code 1 on the first validation failure and 0
otherwise. The manifest write precedes both validations. -/
def pre_gen_main (operating_system : String) (config : CCConfig)
    (project_name project_slug : String) : PreGenResult :=
  let config2 := patch_config operating_system config
  if validate_project_name project_name then
    if validate_project_slug project_slug then
      { savedConfig := some config2, exitCode := 0 }
    else
      { savedConfig := some config2, exitCode := 1 }
  else
    { savedConfig := some config2, exitCode := 1 }

/-- C3 (counterexample to the claim as stated): on macOS with a
manifest holding an empty _prompts table, an invalid project name makes
the hook exit with code 1, but the configuration manifest has by then
already been rewritten, and with modified content (the Astro CLI prompt
was inserted) — so it is not true that the manifest is unmodified when
validation fails. -/
theorem C3_counterexample :
    (pre_gen_main "Darwin" ⟨some [], none⟩ "my_project" "my_slug").exitCode = 1 ∧
    (pre_gen_main "Darwin" ⟨some [], none⟩ "my_project" "my_slug").savedConfig ≠ none ∧
    (pre_gen_main "Darwin" ⟨some [], none⟩ "my_project" "my_slug").savedConfig ≠
      some ⟨some [], none⟩ := by
  refine ⟨by decide, by decide, by decide⟩

/-- C3 (amended): whenever the project name or the project slug fails
validation, the pre-generation hook exits with code 1 (so rendering
never starts and no project output is produced), but the configuration
manifest has already been rewritten with the patched content before
validation runs. -/
theorem C3_validation_exit (operating_system : String) (config : CCConfig)
    (project_name project_slug : String)
    (h : validate_project_name project_name = false ∨
         validate_project_slug project_slug = false) :
    (pre_gen_main operating_system config project_name project_slug).exitCode = 1 ∧
    (pre_gen_main operating_system config project_name project_slug).savedConfig =
      some (patch_config operating_system config) := by
  unfold pre_gen_main
  by_cases hn : validate_project_name project_name
  · rcases h with h | h
    · rw [hn] at h
      cases h
    · rw [if_pos hn, if_neg (by rw [h]; exact Bool.false_ne_true)]
      exact ⟨rfl, rfl⟩
  · rw [if_neg hn]
    exact ⟨rfl, rfl⟩

theorem C3_validation_exit_witness :
    (pre_gen_main "Linux" ⟨some [], none⟩ "bad_name" "good_slug").exitCode = 1 ∧
    (pre_gen_main "Linux" ⟨some [], none⟩ "bad_name" "good_slug").savedConfig =
      some (patch_config "Linux" ⟨some [], none⟩) :=
  C3_validation_exit "Linux" ⟨some [], none⟩ "bad_name" "good_slug"
    (Or.inl (by decide))

/-- C6 (counterexample to the claim as stated): on Linux, a manifest
without a _prompts key is not left unchanged — the patcher inserts an
empty _prompts table before the platform dispatch. -/
theorem C6_counterexample :
    patch_config "Linux" ⟨none, none⟩ = ⟨some [], none⟩ ∧
    patch_config "Linux" ⟨none, none⟩ ≠ ⟨none, none⟩ := by
  refine ⟨by decide, by decide⟩

/-- C6 (amended): the patcher first initializes _prompts to an empty
table when the key is absent; after that, on Darwin it inserts the
include_astro_cli prompt into _prompts and leaves the top-level
include_astro_cli default alone; on Windows it removes the
include_astro_cli prompt and sets the top-level include_astro_cli
default to "n"; on every other platform it makes no further change, so
the manifest is unchanged except for the possible insertion of the
empty _prompts table. -/
theorem C6_patch_config (config : CCConfig) (operating_system : String)
    (hd : operating_system ≠ "Darwin") (hw : operating_system ≠ "Windows") :
    (patch_config "Darwin" config).prompts =
      some (setKey "include_astro_cli" astroPromptText ((config.prompts).getD [])) ∧
    (patch_config "Darwin" config).include_astro_cli = config.include_astro_cli ∧
    (patch_config "Windows" config).prompts =
      some (delKey "include_astro_cli" ((config.prompts).getD [])) ∧
    (patch_config "Windows" config).include_astro_cli = some "n" ∧
    patch_config operating_system config =
      (match config.prompts with
       | none => { config with prompts := some [] }
       | some _ => config) := by
  unfold patch_config
  cases config with
  | mk prompts astro =>
    cases prompts with
    | none =>
      refine ⟨by simp, by simp, by simp, by simp, ?_⟩
      simp only []
      rw [if_neg hd, if_neg hw]
    | some m =>
      refine ⟨by simp, by simp, by simp, by simp, ?_⟩
      simp only []
      rw [if_neg hd, if_neg hw]

theorem C6_patch_config_witness :
    (patch_config "Darwin" ⟨none, none⟩).prompts =
      some (setKey "include_astro_cli" astroPromptText []) ∧
    (patch_config "Darwin" ⟨none, none⟩).include_astro_cli = none ∧
    (patch_config "Windows" ⟨none, none⟩).prompts =
      some (delKey "include_astro_cli" []) ∧
    (patch_config "Windows" ⟨none, none⟩).include_astro_cli = some "n" ∧
    patch_config "Linux" ⟨none, none⟩ = ⟨some [], none⟩ :=
  C6_patch_config ⟨none, none⟩ "Linux" (by decide) (by decide)

/-! ### Subprocess model and the Astro CLI bootstrap
(hooks/post_gen_project.py, lines 141-212) -/

/-- The exceptions that can escape run_command: only
subprocess.CalledProcessError (re-raised when check is set). -/
inductive PyExc where
  | calledProcessError (returncode : Nat)
deriving DecidableEq, Repr

/-- The runtime behavior of one external command: the executable is
absent (FileNotFoundError), the command runs and returns an exit code,
or some other exception occurs while running it. -/
inductive CmdBehavior where
  | notFound
  | completes (returncode : Nat)
  | raisesOther
deriving DecidableEq, Repr

/-- hooks/post_gen_project.py lines 141-169 (run_command): run the
command; a CalledProcessError (raised by subprocess.run only when check
is set) is printed and re-raised when check is set; FileNotFoundError
and any other exception are printed and turned into a None result; a
completed process is returned with its exit code. -/
def run_command (command : List String) (b : CmdBehavior) (check : Bool) :
    Except PyExc (Option Nat) :=
  match b with
  | .notFound => .ok none
  | .raisesOther => .ok none
  | .completes rc =>
    if check ∧ rc ≠ 0 then .error (.calledProcessError rc)
    else .ok (some rc)

/-- hooks/post_gen_project.py lines 188-212: the Astro CLI match block.
Only on ("y", "Darwin") anything runs: the which-probe (check=False)
whose None result or non-zero exit code only prints guidance, and, on a
zero probe exit code, the init command (check=True) whose
CalledProcessError is caught by the except subprocess.SubprocessError
handler; the whole block sits in a try with except Exception, so no
exception escapes. All other flag/platform pairs print a skip notice. -/
def astro_section (include_astro_cli operating_system : String)
    (whichB initB : CmdBehavior) : Except PyExc Unit :=
  if include_astro_cli = "y" ∧ operating_system = "Darwin" then
    match run_command ["which", "astro"] whichB false with
    | .error _ => .ok ()
    | .ok none => .ok ()
    | .ok (some rc) =>
      if rc = 0 then
        match run_command ["astro", "dev", "init"] initB true with
        | .error (.calledProcessError _) => .ok ()
        | .ok _ => .ok ()
      else .ok ()
  else .ok ()

/-- hooks/post_gen_project.py lines 172-245 (the __main__ block): the
mkdocs section, the codecov section, the Astro CLI section, then the
license section; the script contains no sys.exit, so the process exit
code is 0 unless an exception escapes. -/
def post_gen_main (mkdocs codecov include_astro_cli operating_system license_type : String)
    (whichB initB : CmdBehavior) (fs : FS) : Except PyExc FS :=
  match astro_section include_astro_cli operating_system whichB initB with
  | .error e => .error e
  | .ok _ =>
    .ok (license_section license_type (codecov_section codecov (mkdocs_section mkdocs fs)))

/-- The process exit code of the post-generation hook: 1 only if an
exception escaped the script, 0 otherwise. -/
def post_gen_exit_code (mkdocs codecov include_astro_cli operating_system license_type : String)
    (whichB initB : CmdBehavior) (fs : FS) : Nat :=
  match post_gen_main mkdocs codecov include_astro_cli operating_system license_type
      whichB initB fs with
  | .ok _ => 0
  | .error _ => 1

lemma run_command_nocheck (cmd : List String) (b : CmdBehavior) :
    run_command cmd b false = .ok none ∨
    ∃ rc, run_command cmd b false = .ok (some rc) := by
  cases b with
  | notFound => exact Or.inl rfl
  | raisesOther => exact Or.inl rfl
  | completes rc =>
    right
    refine ⟨rc, ?_⟩
    change (if false = true ∧ rc ≠ 0 then Except.error (PyExc.calledProcessError rc)
      else Except.ok (some rc)) = Except.ok (some rc)
    rw [if_neg]
    rintro ⟨h, _⟩
    cases h

lemma astro_section_ok (include_astro_cli operating_system : String)
    (whichB initB : CmdBehavior) :
    astro_section include_astro_cli operating_system whichB initB = .ok () := by
  unfold astro_section
  by_cases hy : include_astro_cli = "y" ∧ operating_system = "Darwin"
  · rw [if_pos hy]
    rcases run_command_nocheck ["which", "astro"] whichB with h | ⟨rc, h⟩
    · rw [h]
    · rw [h]
      change (if rc = 0 then _ else _) = _
      by_cases hrc : rc = 0
      · rw [if_pos hrc]
        cases hres : run_command ["astro", "dev", "init"] initB true with
        | error e => cases e with | calledProcessError rc2 => rfl
        | ok v => rfl
      · rw [if_neg hrc]
  · rw [if_neg hy]

/-- C9: for every outcome of the Astro CLI bootstrap — tool absent,
probe failure or non-zero probe exit, initialization-command failure,
or any other error — the Astro section completes without raising, and
the post-generation hook's exit code is 0 for every combination of
flags, platform, command behaviors and tree. -/
theorem C9_astro_nonfatal
    (mkdocs codecov include_astro_cli operating_system license_type : String)
    (whichB initB : CmdBehavior) (fs : FS) :
    astro_section include_astro_cli operating_system whichB initB = .ok () ∧
    post_gen_exit_code mkdocs codecov include_astro_cli operating_system license_type
      whichB initB fs = 0 := by
  refine ⟨astro_section_ok _ _ _ _, ?_⟩
  unfold post_gen_exit_code post_gen_main
  rw [astro_section_ok]

/-! ### Branch lemmas for the move operations -/

lemma length_of_mem_parentDirsGo {q : String} :
    ∀ (rest acc : List Char), q ∈ parentDirsGo acc rest →
      q.data.length < acc.length + rest.length := by
  intro rest
  induction rest with
  | nil =>
    intro acc h
    cases h
  | cons c t ih =>
    intro acc h
    unfold parentDirsGo at h
    by_cases hc : c = '/'
    · rw [if_pos hc] at h
      rcases List.mem_cons.mp h with rfl | h'
      · have hq : (String.mk acc).data = acc := rfl
        rw [hq]
        simp only [List.length_cons]
        omega
      · have := ih (acc ++ [c]) h'
        rw [List.length_append] at this
        simp only [List.length_cons, List.length_nil] at this ⊢
        omega
    · rw [if_neg hc] at h
      have := ih (acc ++ [c]) h
      rw [List.length_append] at this
      simp only [List.length_cons, List.length_nil] at this ⊢
      omega

lemma parentDirs_length {p q : String} (h : q ∈ parentDirs p) :
    q.data.length < p.data.length := by
  have := length_of_mem_parentDirsGo p.data [] h
  simpa using this

lemma not_mem_parentDirs_self (p : String) : p ∉ parentDirs p :=
  fun h => absurd (parentDirs_length h) (lt_irrefl _)

lemma real_not_mem_parentDirs (tgt b : String) :
    (tgt ++ "/" ++ b) ∉ parentDirs tgt := by
  intro h
  have hlt := parentDirs_length h
  rw [String.data_append, String.data_append, List.length_append, List.length_append] at hlt
  have h1 : ("/" : String).data.length = 1 := rfl
  rw [h1] at hlt
  omega

lemma not_mem_mkdirParents_dirs {tgt : String} {fs : FS} (h : tgt ∉ fs.dirs) :
    tgt ∉ (mkdirParents tgt fs).dirs := by
  rw [mem_mkdirParents_dirs]
  rintro (h' | h')
  · exact h h'
  · exact not_mem_parentDirs_self tgt h'

lemma mem_mkdirParents_exists {src tgt : String} {fs : FS}
    (hs : src ∈ fs.files ∨ src ∈ fs.dirs) :
    src ∈ (mkdirParents tgt fs).files ∨ src ∈ (mkdirParents tgt fs).dirs := by
  rcases hs with h | h
  · exact Or.inl h
  · exact Or.inr (mem_mkdirParents_dirs.mpr (Or.inl h))

lemma move_file_absent {src tgt : String} {fs : FS}
    (h1 : src ∉ fs.files) (h2 : src ∉ fs.dirs) (h3 : src ∉ parentDirs tgt) :
    move_file src tgt fs =
      addLog .warning ("Source file " ++ src ++ " does not exist, skipping move operation.")
        (mkdirParents tgt fs) := by
  simp only [move_file]
  rw [if_neg]
  rintro (h | h)
  · exact h1 h
  · rcases mem_mkdirParents_dirs.mp h with h' | h'
    · exact h2 h'
    · exact h3 h'

lemma move_file_replace {src tgt : String} {fs : FS}
    (hs : src ∈ fs.files) (ht : tgt ∉ fs.dirs) (hne : tgt ≠ src) :
    move_file src tgt fs =
      addLog .info ("Moved file: " ++ src ++ " to " ++ tgt)
        (renamePath src tgt (removeEntry tgt (mkdirParents tgt fs))) := by
  simp only [move_file]
  rw [if_pos (mem_mkdirParents_exists (Or.inl hs)),
      if_pos (show src ∈ (mkdirParents tgt fs).files from hs),
      if_neg (not_mem_mkdirParents_dirs ht), if_neg hne]

lemma move_file_onto_dir {src tgt : String} {fs : FS}
    (hs : src ∈ fs.files) (ht : tgt ∈ fs.dirs) :
    move_file src tgt fs =
      addLog .error ("Error moving file " ++ src ++ " to " ++ tgt)
        (mkdirParents tgt fs) := by
  simp only [move_file]
  rw [if_pos (mem_mkdirParents_exists (Or.inl hs)),
      if_pos (show src ∈ (mkdirParents tgt fs).files from hs),
      if_pos (mem_mkdirParents_dirs.mpr (Or.inl ht))]

lemma move_file_dir_plain {src tgt : String} {fs : FS}
    (hs1 : src ∉ fs.files) (hs2 : src ∈ fs.dirs)
    (ht1 : tgt ∉ fs.files) (ht2 : tgt ∉ fs.dirs) :
    move_file src tgt fs =
      addLog .info ("Moved file: " ++ src ++ " to " ++ tgt)
        (renamePath src tgt (mkdirParents tgt fs)) := by
  simp only [move_file]
  rw [if_pos (mem_mkdirParents_exists (Or.inr hs2)),
      if_neg (show src ∉ (mkdirParents tgt fs).files from hs1),
      if_neg (show tgt ∉ (mkdirParents tgt fs).files from ht1),
      if_neg (not_mem_mkdirParents_dirs ht2)]

lemma move_dir_absent {src tgt : String} {fs : FS}
    (h1 : src ∉ fs.files) (h2 : src ∉ fs.dirs) (h3 : src ∉ parentDirs tgt) :
    move_dir src tgt fs =
      addLog .warning ("Source directory " ++ src ++ " does not exist, skipping move operation.")
        (mkdirParents tgt fs) := by
  simp only [move_dir]
  rw [if_neg]
  rintro (h | h)
  · exact h1 h
  · rcases mem_mkdirParents_dirs.mp h with h' | h'
    · exact h2 h'
    · exact h3 h'

lemma move_dir_into_ok {src tgt : String} {fs : FS}
    (hs : src ∈ fs.files ∨ src ∈ fs.dirs) (ht : tgt ∈ fs.dirs)
    (hr1 : (tgt ++ "/" ++ baseName src) ∉ fs.files)
    (hr2 : (tgt ++ "/" ++ baseName src) ∉ fs.dirs) :
    move_dir src tgt fs =
      addLog .info ("Moved directory: " ++ src ++ " to " ++ tgt)
        (renamePath src (tgt ++ "/" ++ baseName src) (mkdirParents tgt fs)) := by
  have hr2' : (tgt ++ "/" ++ baseName src) ∉ (mkdirParents tgt fs).dirs := by
    rw [mem_mkdirParents_dirs]
    rintro (h | h)
    · exact hr2 h
    · exact real_not_mem_parentDirs tgt (baseName src) h
  simp only [move_dir]
  rw [if_pos (mem_mkdirParents_exists hs),
      if_pos (mem_mkdirParents_dirs.mpr (Or.inl ht)), if_neg]
  rintro (h | h)
  · exact hr1 h
  · exact hr2' h

lemma move_dir_into_collision {src tgt : String} {fs : FS}
    (hs : src ∈ fs.files ∨ src ∈ fs.dirs) (ht : tgt ∈ fs.dirs)
    (hr : (tgt ++ "/" ++ baseName src) ∈ fs.files ∨
          (tgt ++ "/" ++ baseName src) ∈ fs.dirs) :
    move_dir src tgt fs =
      addLog .error ("Error moving directory " ++ src ++ " to " ++ tgt)
        (mkdirParents tgt fs) := by
  simp only [move_dir]
  rw [if_pos (mem_mkdirParents_exists hs),
      if_pos (mem_mkdirParents_dirs.mpr (Or.inl ht)),
      if_pos (mem_mkdirParents_exists hr)]

lemma move_dir_plain {src tgt : String} {fs : FS}
    (hs : src ∈ fs.files ∨ src ∈ fs.dirs)
    (ht1 : tgt ∉ fs.files) (ht2 : tgt ∉ fs.dirs) (hne : tgt ≠ src) :
    move_dir src tgt fs =
      addLog .info ("Moved directory: " ++ src ++ " to " ++ tgt)
        (renamePath src tgt (removeEntry tgt (mkdirParents tgt fs))) := by
  simp only [move_dir]
  rw [if_pos (mem_mkdirParents_exists hs), if_neg (not_mem_mkdirParents_dirs ht2),
      if_neg (show ¬(src ∉ (mkdirParents tgt fs).files ∧ tgt ∈ (mkdirParents tgt fs).files)
        from fun hh => ht1 hh.2),
      if_neg hne]

/-- C7 (counterexample to the claim as stated): on the POSIX platforms
the hooks run on, moving a file onto an already-existing destination
file does not report a conflict and does not abort the move: on a tree
holding files a and b, moving a to b silently replaces b (the files
become exactly b, so that path was modified) and the log holds no
warning-level record and no error-level record at all. -/
theorem C7_counterexample :
    (move_file "a" "b" ⟨["a", "b"], [], []⟩).files = ["b"] ∧
    (move_file "a" "b" ⟨["a", "b"], [], []⟩).logs.all
        (fun e => decide (e.level ≠ LogLevel.warning)) = true ∧
    (move_file "a" "b" ⟨["a", "b"], [], []⟩).logs.all
        (fun e => decide (e.level ≠ LogLevel.error)) = true := by
  refine ⟨by decide, by decide, by decide⟩

/-- C7 (amended): both move operations first create the destination's
missing parent directories; when the source does not exist the tree is
unchanged apart from those parents and a warning-level (non-error)
record is logged; destination conflicts follow the POSIX primitives
rather than a uniform warning-level abort: moving a file onto an
existing destination file silently replaces the destination (an
info-level record only, the tree is modified), moving a file onto an
existing destination directory fails and is reported at error level
with the files unchanged, moving a directory onto an existing
destination directory relocates the source inside that directory when
the inner name is free and otherwise is reported at error level with
the files unchanged; when the destination does not exist at all the
source is relocated to it; no outcome aborts the overall run. -/
theorem C7_move_contract (fs : FS) (src tgt : String) :
    (∀ d ∈ parentDirs tgt, d ∈ (mkdirParents tgt fs).dirs) ∧
    (src ∉ fs.files → src ∉ fs.dirs → src ∉ parentDirs tgt →
      (move_file src tgt fs).files = fs.files ∧
      (move_file src tgt fs).dirs = (mkdirParents tgt fs).dirs ∧
      (∃ m, (move_file src tgt fs).logs = fs.logs ++ [⟨.warning, m⟩]) ∧
      (move_dir src tgt fs).files = fs.files ∧
      (move_dir src tgt fs).dirs = (mkdirParents tgt fs).dirs ∧
      (∃ m, (move_dir src tgt fs).logs = fs.logs ++ [⟨.warning, m⟩])) ∧
    (src ∈ fs.files → tgt ∈ fs.files → tgt ∉ fs.dirs → tgt ≠ src →
      (move_file src tgt fs).files =
        (fs.files.filter (fun q => decide (q ≠ tgt))).map (reroot src tgt) ∧
      tgt ∈ (move_file src tgt fs).files ∧
      (∃ m, (move_file src tgt fs).logs = fs.logs ++ [⟨.info, m⟩])) ∧
    (src ∈ fs.files → tgt ∈ fs.dirs →
      (move_file src tgt fs).files = fs.files ∧
      (move_file src tgt fs).dirs = (mkdirParents tgt fs).dirs ∧
      (∃ m, (move_file src tgt fs).logs = fs.logs ++ [⟨.error, m⟩])) ∧
    ((src ∈ fs.files ∨ src ∈ fs.dirs) → tgt ∈ fs.dirs →
       (tgt ++ "/" ++ baseName src) ∉ fs.files →
       (tgt ++ "/" ++ baseName src) ∉ fs.dirs →
      (move_dir src tgt fs).files = fs.files.map (reroot src (tgt ++ "/" ++ baseName src)) ∧
      ((tgt ++ "/" ++ baseName src) ∈ (move_dir src tgt fs).files ∨
        (tgt ++ "/" ++ baseName src) ∈ (move_dir src tgt fs).dirs) ∧
      (∃ m, (move_dir src tgt fs).logs = fs.logs ++ [⟨.info, m⟩])) ∧
    ((src ∈ fs.files ∨ src ∈ fs.dirs) → tgt ∈ fs.dirs →
       ((tgt ++ "/" ++ baseName src) ∈ fs.files ∨
        (tgt ++ "/" ++ baseName src) ∈ fs.dirs) →
      (move_dir src tgt fs).files = fs.files ∧
      (move_dir src tgt fs).dirs = (mkdirParents tgt fs).dirs ∧
      (∃ m, (move_dir src tgt fs).logs = fs.logs ++ [⟨.error, m⟩])) ∧
    ((src ∈ fs.files ∨ src ∈ fs.dirs) → tgt ∉ fs.files → tgt ∉ fs.dirs →
      (move_file src tgt fs).files = fs.files.map (reroot src tgt) ∧
      (tgt ∈ (move_file src tgt fs).files ∨ tgt ∈ (move_file src tgt fs).dirs) ∧
      (∃ m, (move_file src tgt fs).logs = fs.logs ++ [⟨.info, m⟩]) ∧
      (move_dir src tgt fs).files = fs.files.map (reroot src tgt) ∧
      (tgt ∈ (move_dir src tgt fs).files ∨ tgt ∈ (move_dir src tgt fs).dirs) ∧
      (∃ m, (move_dir src tgt fs).logs = fs.logs ++ [⟨.info, m⟩])) := by
  refine ⟨?_, ?_, ?_, ?_, ?_, ?_, ?_⟩
  · intro d hd
    exact mem_mkdirParents_dirs.mpr (Or.inr hd)
  · intro h1 h2 h3
    rw [move_file_absent h1 h2 h3, move_dir_absent h1 h2 h3]
    exact ⟨rfl, rfl, ⟨_, rfl⟩, rfl, rfl, ⟨_, rfl⟩⟩
  · intro hs ht htd hne
    rw [move_file_replace hs htd hne]
    refine ⟨rfl, ?_, ⟨_, rfl⟩⟩
    have hmem : src ∈ fs.files.filter (fun q => decide (q ≠ tgt)) := by
      apply List.mem_filter.mpr
      refine ⟨hs, ?_⟩
      simp only [decide_eq_true_eq]
      exact fun e => hne e.symm
    exact mem_map_reroot_tgt hmem
  · intro hs ht
    rw [move_file_onto_dir hs ht]
    exact ⟨rfl, rfl, ⟨_, rfl⟩⟩
  · intro hs ht hr1 hr2
    rw [move_dir_into_ok hs ht hr1 hr2]
    refine ⟨rfl, ?_, ⟨_, rfl⟩⟩
    rcases hs with h | h
    · exact Or.inl (mem_map_reroot_tgt h)
    · exact Or.inr (mem_map_reroot_tgt (mem_mkdirParents_dirs.mpr (Or.inl h)))
  · intro hs ht hr
    rw [move_dir_into_collision hs ht hr]
    exact ⟨rfl, rfl, ⟨_, rfl⟩⟩
  · intro hs ht1 ht2
    have hfe : fs.files.filter (fun q => decide (q ≠ tgt)) = fs.files := by
      apply List.filter_eq_self.mpr
      intro a ha
      simp only [decide_eq_true_eq]
      rintro rfl
      exact ht1 ha
    have hne : tgt ≠ src := by
      rintro rfl
      rcases hs with h | h
      · exact ht1 h
      · exact ht2 h
    constructor
    · by_cases hsf : src ∈ fs.files
      · rw [move_file_replace hsf ht2 hne]
        show (fs.files.filter (fun q => decide (q ≠ tgt))).map (reroot src tgt) =
          fs.files.map (reroot src tgt)
        rw [hfe]
      · have hsd : src ∈ fs.dirs := by
          rcases hs with h | h
          · exact absurd h hsf
          · exact h
        rw [move_file_dir_plain hsf hsd ht1 ht2]
        rfl
    constructor
    · by_cases hsf : src ∈ fs.files
      · rw [move_file_replace hsf ht2 hne]
        left
        have hmem : src ∈ fs.files.filter (fun q => decide (q ≠ tgt)) := by
          apply List.mem_filter.mpr
          refine ⟨hsf, ?_⟩
          simp only [decide_eq_true_eq]
          exact fun e => hne e.symm
        exact mem_map_reroot_tgt hmem
      · have hsd : src ∈ fs.dirs := by
          rcases hs with h | h
          · exact absurd h hsf
          · exact h
        rw [move_file_dir_plain hsf hsd ht1 ht2]
        exact Or.inr (mem_map_reroot_tgt (mem_mkdirParents_dirs.mpr (Or.inl hsd)))
    constructor
    · by_cases hsf : src ∈ fs.files
      · rw [move_file_replace hsf ht2 hne]
        exact ⟨_, rfl⟩
      · have hsd : src ∈ fs.dirs := by
          rcases hs with h | h
          · exact absurd h hsf
          · exact h
        rw [move_file_dir_plain hsf hsd ht1 ht2]
        exact ⟨_, rfl⟩
    rw [move_dir_plain hs ht1 ht2 hne]
    refine ⟨?_, ?_, ⟨_, rfl⟩⟩
    · show (fs.files.filter (fun q => decide (q ≠ tgt))).map (reroot src tgt) =
        fs.files.map (reroot src tgt)
      rw [hfe]
    · rcases hs with h | h
      · left
        have hmem : src ∈ fs.files.filter (fun q => decide (q ≠ tgt)) := by
          apply List.mem_filter.mpr
          refine ⟨h, ?_⟩
          simp only [decide_eq_true_eq]
          exact fun e => hne e.symm
        exact mem_map_reroot_tgt hmem
      · right
        have hmem : src ∈ ((mkdirParents tgt fs).dirs.filter (fun q => decide (q ≠ tgt))) := by
          apply List.mem_filter.mpr
          refine ⟨mem_mkdirParents_dirs.mpr (Or.inl h), ?_⟩
          simp only [decide_eq_true_eq]
          exact fun e => hne e.symm
        exact mem_map_reroot_tgt hmem

theorem C7_move_contract_witness :
    ((move_file "a" "b/c" ⟨[], [], []⟩).files = [] ∧
     (move_file "a" "b/c" ⟨[], [], []⟩).dirs = (mkdirParents "b/c" ⟨[], [], []⟩).dirs ∧
     (∃ m, (move_file "a" "b/c" ⟨[], [], []⟩).logs = [] ++ [⟨.warning, m⟩]) ∧
     (move_dir "a" "b/c" ⟨[], [], []⟩).files = [] ∧
     (move_dir "a" "b/c" ⟨[], [], []⟩).dirs = (mkdirParents "b/c" ⟨[], [], []⟩).dirs ∧
     (∃ m, (move_dir "a" "b/c" ⟨[], [], []⟩).logs = [] ++ [⟨.warning, m⟩])) ∧
    ((move_file "a" "b" ⟨["a", "b"], [], []⟩).files =
       (["a", "b"].filter (fun q => decide (q ≠ "b"))).map (reroot "a" "b") ∧
     "b" ∈ (move_file "a" "b" ⟨["a", "b"], [], []⟩).files ∧
     (∃ m, (move_file "a" "b" ⟨["a", "b"], [], []⟩).logs = [] ++ [⟨.info, m⟩])) ∧
    ((move_file "a" "d" ⟨["a"], ["d"], []⟩).files = ["a"] ∧
     (move_file "a" "d" ⟨["a"], ["d"], []⟩).dirs = (mkdirParents "d" ⟨["a"], ["d"], []⟩).dirs ∧
     (∃ m, (move_file "a" "d" ⟨["a"], ["d"], []⟩).logs = [] ++ [⟨.error, m⟩])) ∧
    ((move_dir "s" "d" ⟨[], ["d", "s"], []⟩).files =
       [].map (reroot "s" ("d" ++ "/" ++ baseName "s")) ∧
     (("d" ++ "/" ++ baseName "s") ∈ (move_dir "s" "d" ⟨[], ["d", "s"], []⟩).files ∨
       ("d" ++ "/" ++ baseName "s") ∈ (move_dir "s" "d" ⟨[], ["d", "s"], []⟩).dirs) ∧
     (∃ m, (move_dir "s" "d" ⟨[], ["d", "s"], []⟩).logs = [] ++ [⟨.info, m⟩])) ∧
    ((move_dir "s" "d" ⟨[], ["d", "s", "d/s"], []⟩).files = [] ∧
     (move_dir "s" "d" ⟨[], ["d", "s", "d/s"], []⟩).dirs =
       (mkdirParents "d" ⟨[], ["d", "s", "d/s"], []⟩).dirs ∧
     (∃ m, (move_dir "s" "d" ⟨[], ["d", "s", "d/s"], []⟩).logs = [] ++ [⟨.error, m⟩])) ∧
    ((move_file "a" "b" ⟨["a"], [], []⟩).files = ["a"].map (reroot "a" "b") ∧
     ("b" ∈ (move_file "a" "b" ⟨["a"], [], []⟩).files ∨
       "b" ∈ (move_file "a" "b" ⟨["a"], [], []⟩).dirs) ∧
     (∃ m, (move_file "a" "b" ⟨["a"], [], []⟩).logs = [] ++ [⟨.info, m⟩]) ∧
     (move_dir "a" "b" ⟨["a"], [], []⟩).files = ["a"].map (reroot "a" "b") ∧
     ("b" ∈ (move_dir "a" "b" ⟨["a"], [], []⟩).files ∨
       "b" ∈ (move_dir "a" "b" ⟨["a"], [], []⟩).dirs) ∧
     (∃ m, (move_dir "a" "b" ⟨["a"], [], []⟩).logs = [] ++ [⟨.info, m⟩])) :=
  ⟨(C7_move_contract ⟨[], [], []⟩ "a" "b/c").2.1 (by decide) (by decide) (by decide),
   (C7_move_contract ⟨["a", "b"], [], []⟩ "a" "b").2.2.1 (by decide) (by decide)
     (by decide) (by decide),
   (C7_move_contract ⟨["a"], ["d"], []⟩ "a" "d").2.2.2.1 (by decide) (by decide),
   (C7_move_contract ⟨[], ["d", "s"], []⟩ "s" "d").2.2.2.2.1 (by decide) (by decide)
     (by decide) (by decide),
   (C7_move_contract ⟨[], ["d", "s", "d/s"], []⟩ "s" "d").2.2.2.2.2.1 (by decide)
     (by decide) (by decide),
   (C7_move_contract ⟨["a"], [], []⟩ "a" "b").2.2.2.2.2.2 (by decide) (by decide)
     (by decide)⟩
